import Mathlib

/-!
# Verification of the weight-dashboard data engine

Shallow embedding of the data reconciliation and derived-metrics engine of
the weight-dashboard repository (the `DataManager` module and the data
completeness check of the app module), together with proofs of the frozen
claims about it.

Modelling conventions:
* JavaScript numbers are modelled as exact rationals (`ℚ`); IEEE-754 rounding
  is outside the model.  `NaN` is modelled as `none` in `Option ℚ` wherever a
  computation can produce it.
* Spreadsheet cell values are modelled by the inductive type `Cell`
  (string / number / date object / null / undefined).  Strings are lists of
  characters so that the character-level matching done by the source's
  regular expressions can be embedded directly.
* `Math.round` is round-half-toward-positive-infinity, i.e. `⌊x + 1/2⌋`;
  `toFixed(1)` picks the closest multiple of 1/10 (larger on ties), which is
  the same rounding applied at one decimal.
* JavaScript `Date` values are abstracted by an order-preserving encoding of
  the calendar day (`dateEncode`); only comparisons of dates are ever used by
  the embedded code.
-/

/-- JavaScript `Math.round`: round half toward positive infinity. -/
def jsRound (q : ℚ) : ℤ := ⌊q + 1 / 2⌋

/-- `Math.round(x * 100) / 100` — round to 2 decimals. -/
def round2 (q : ℚ) : ℚ := (jsRound (q * 100) : ℚ) / 100

/-- `Math.round(x * 10) / 10` — round to 1 decimal (also the numeric value of
`toFixed(1)`). -/
def round1 (q : ℚ) : ℚ := (jsRound (q * 10) : ℚ) / 10

/-- Truthiness of an optional JS number (`none` stands for null/undefined,
`some 0` is falsy like JS `0`). -/
def truthyNum (o : Option ℚ) : Bool :=
  match o with
  | some q => q != 0
  | none => false

/-- `a || d` for an optional JS number `a` and a number default `d`. -/
def jsOrNum (o : Option ℚ) (d : ℚ) : ℚ :=
  if truthyNum o then o.getD 0 else d

/-- Subtraction where `none` is NaN (NaN propagates). -/
def jsSub (a b : Option ℚ) : Option ℚ :=
  match a, b with
  | some x, some y => some (x - y)
  | _, _ => none

/-- `a < b` where `none` is NaN (any comparison with NaN is false). -/
def jsLt (a b : Option ℚ) : Bool :=
  match a, b with
  | some x, some y => x < y
  | _, _ => false

/-- `a <= b` where `none` is NaN. -/
def jsLe (a b : Option ℚ) : Bool :=
  match a, b with
  | some x, some y => x ≤ y
  | _, _ => false

/-- `Math.abs` where `none` is NaN. -/
def jsAbs (a : Option ℚ) : Option ℚ := a.map (fun x => |x|)

/-! ## Characters and digit strings -/

/-- The ten decimal digit characters. -/
def isDig (c : Char) : Bool :=
  c = '0' ∨ c = '1' ∨ c = '2' ∨ c = '3' ∨ c = '4' ∨
  c = '5' ∨ c = '6' ∨ c = '7' ∨ c = '8' ∨ c = '9'

/-- Value of a decimal digit character (0 for non-digits). -/
def digVal (c : Char) : ℕ :=
  if c = '1' then 1 else if c = '2' then 2 else if c = '3' then 3 else
  if c = '4' then 4 else if c = '5' then 5 else if c = '6' then 6 else
  if c = '7' then 7 else if c = '8' then 8 else if c = '9' then 9 else 0

/-- The decimal digit character for `k < 10`. -/
def digChar (k : ℕ) : Char :=
  if k = 1 then '1' else if k = 2 then '2' else if k = 3 then '3' else
  if k = 4 then '4' else if k = 5 then '5' else if k = 6 then '6' else
  if k = 7 then '7' else if k = 8 then '8' else if k = 9 then '9' else '0'

set_option linter.unusedVariables false in
/-- Decimal representation of a natural number, most significant digit first
(the embedding of JS `String(n)` for naturals). -/
def natToChars (n : ℕ) : List Char :=
  if h : n < 10 then [digChar n]
  else natToChars (n / 10) ++ [digChar (n % 10)]
  decreasing_by exact Nat.div_lt_self (by omega) (by omega)

/-- Numeric value of a digit string (the embedding of JS `Number` on an
all-digits string). -/
def charsToNat (s : List Char) : ℕ :=
  s.foldl (fun a c => a * 10 + digVal c) 0

/-- `padStart(2, '0')`. -/
def pad2 (s : List Char) : List Char :=
  List.replicate (2 - s.length) '0' ++ s

/-- `padStart(4, '0')` (used by the ISO form of a native date). -/
def pad4 (s : List Char) : List Char :=
  List.replicate (4 - s.length) '0' ++ s

/-- Split a character list at every occurrence of `c` (the embedding of
`String.prototype.split` with a single-character separator). -/
def splitOnChar (c : Char) : List Char → List (List Char)
  | [] => [[]]
  | x :: xs =>
    if x = c then [] :: splitOnChar c xs
    else
      match splitOnChar c xs with
      | [] => [[x]]
      | h :: t => (x :: h) :: t

/-! ## Spreadsheet cell values -/

/-- A raw spreadsheet cell value as handed to the row parser: a string, a
number, a native date value (kept as its calendar triple — the spec mandates
naive calendar dates, no time-of-day), `null`, or `undefined`. -/
inductive Cell where
  | str (s : List Char)
  | num (q : ℚ)
  | dateObj (y m d : ℕ)
  | nullv
  | undef
deriving DecidableEq

/-- JS truthiness of a cell value. -/
def truthyCell (c : Cell) : Bool :=
  match c with
  | .str s => !s.isEmpty
  | .num q => q != 0
  | .dateObj _ _ _ => true
  | .nullv => false
  | .undef => false

/-- `row[i]` — out-of-range indexing yields `undefined`. -/
def getCell (row : List Cell) (i : ℕ) : Cell := (row.get? i).getD Cell.undef

/-- Is the character JS whitespace (the forms relevant to cell data). -/
def isWs (c : Char) : Bool := c = ' ' ∨ c = '\t' ∨ c = '\n' ∨ c = '\r'

/-- Optional exponent suffix `e±ddd` of a numeric literal; `b` is the value
parsed so far.  Empty rest means no exponent. -/
def parseExpOpt (b : ℚ) (s : List Char) : Option ℚ :=
  match s with
  | [] => some b
  | e :: rest =>
    if e = 'e' ∨ e = 'E' then
      let (neg, rest2) :=
        match rest with
        | '-' :: r => (true, r)
        | '+' :: r => (false, r)
        | r => (false, r)
      let ds := rest2.takeWhile isDig
      if ds.isEmpty ∨ ¬ (rest2.drop ds.length).isEmpty then none
      else some (if neg then b / 10 ^ charsToNat ds else b * 10 ^ charsToNat ds)
    else none

/-- Unsigned decimal literal `ddd`, `ddd.ddd`, `.ddd`, `ddd.`, with optional
exponent; must consume the whole input. -/
def parseDec (s : List Char) : Option ℚ :=
  let ip := s.takeWhile isDig
  let rest := s.drop ip.length
  match rest with
  | [] => if ip.isEmpty then none else some (charsToNat ip)
  | '.' :: rest2 =>
    let fp := rest2.takeWhile isDig
    let rest3 := rest2.drop fp.length
    if ip.isEmpty ∧ fp.isEmpty then none
    else parseExpOpt ((charsToNat ip : ℚ) + (charsToNat fp : ℚ) / 10 ^ fp.length) rest3
  | _ => if ip.isEmpty then none else parseExpOpt (charsToNat ip) rest

/-- JS `Number(string)` (ToNumber on strings): trim whitespace, empty means 0,
otherwise an optionally signed decimal literal; anything else is NaN (`none`).
Hexadecimal/`Infinity` literals never occur in this data and are outside the
model (they map to `none`). -/
def strToNumber (s : List Char) : Option ℚ :=
  let t := (s.dropWhile isWs).reverse.dropWhile isWs |>.reverse
  match t with
  | [] => some 0
  | '-' :: r => (parseDec r).map (fun q => -q)
  | '+' :: r => parseDec r
  | _ => parseDec t

/-- Order-preserving encoding of a calendar day, standing in for the epoch
timestamp of `new Date(y, m, d)`: only date comparisons are ever performed by
the embedded code, and for `m, d < 100` this encoding orders triples exactly
like timestamps order the corresponding dates. -/
def dateEncode (y m d : ℕ) : ℤ := (y : ℤ) * 10000 + (m : ℤ) * 100 + (d : ℤ)

/-- JS `Number(cell)` (ToNumber).  A date object converts to its timestamp,
abstracted here by `dateEncode`. -/
def jsToNumber (c : Cell) : Option ℚ :=
  match c with
  | .num q => some q
  | .str s => strToNumber s
  | .dateObj y m d => some ((dateEncode y m d : ℤ) : ℚ)
  | .nullv => some 0
  | .undef => none

/-- The row parser's number normalizer (`parseNum` inside `parseInputSheet`):
null, undefined and the empty string become Absent; otherwise `Number(val)`,
with NaN mapped to Absent. -/
def parseNum (v : Cell) : Option ℚ :=
  match v with
  | .nullv => none
  | .undef => none
  | .str [] => none
  | _ =>
    match jsToNumber v with
    | some q => some q
    | none => none

/-- Number normalization of the older parser (`src/js/data.js`, e.g.
`weight: row[1] ? Number(row[1]) : null`): falsy cells become null, truthy
cells are coerced with `Number`, which may yield NaN.  `NumVal` keeps null
and NaN distinct. -/
inductive NumVal where
  | nullv
  | nan
  | val (q : ℚ)
deriving DecidableEq

/-- `row[i] ? Number(row[i]) : null` from the older `data.js` row parser. -/
def dataJsCellNum (v : Cell) : NumVal :=
  if truthyCell v then
    match jsToNumber v with
    | some q => .val q
    | none => .nan
  else .nullv

/-! ## Date normalization (`parseInputSheet`, date column) -/

/-- Try to match the regular expression `Date\((\d+),(\d+),(\d+)\)` at the
start of `s`, returning the three digit groups.  `\d+` is greedy; since the
character after it in the pattern is never a digit, the maximal digit run is
exactly what the regex engine matches. -/
def tryDateAt (s : List Char) : Option (List Char × List Char × List Char) :=
  if ('D' :: ['a', 't', 'e', '(']).isPrefixOf s then
    let r0 := s.drop 5
    let y := r0.takeWhile isDig
    if y.isEmpty then none
    else
      match r0.drop y.length with
      | ',' :: r2 =>
        let m := r2.takeWhile isDig
        if m.isEmpty then none
        else
          match r2.drop m.length with
          | ',' :: r4 =>
            let d := r4.takeWhile isDig
            if d.isEmpty then none
            else
              match r4.drop d.length with
              | ')' :: _ => some (y, m, d)
              | _ => none
          | _ => none
      | _ => none
  else none

/-- First (leftmost) match of `Date\((\d+),(\d+),(\d+)\)` inside `s`
(`String.prototype.match` without the global flag). -/
def firstDateMatch : List Char → Option (List Char × List Char × List Char)
  | [] => none
  | c :: rest =>
    match tryDateAt (c :: rest) with
    | some r => some r
    | none => firstDateMatch rest

/-- Every character is a decimal digit. -/
def allDig (s : List Char) : Bool := s.all isDig

/-- `\d{1,2}` matching the whole component. -/
def dig12 (s : List Char) : Bool := (s.length = 1 ∨ s.length = 2) ∧ allDig s

/-- The date normalization applied to the date column by `parseInputSheet`
(the spec's `normalizeDate`): a `Date(y,m,d)` encoding (month zero-based) is
converted to `y-MM-DD`; a full `YYYY/M/D` slash date is zero-padded to
`YYYY-MM-DD`; a partial `M/D` slash date gets the fixed fallback year 2026;
a native date value becomes the date part of its ISO string; everything else
(including already-canonical strings) passes through unchanged. -/
def normalizeDate (x : Cell) : Cell :=
  match x with
  | .str s =>
    if ('D' :: ['a', 't', 'e', '(']).isPrefixOf s then
      match firstDateMatch s with
      | some (y, m, d) =>
        .str (y ++ '-' :: (pad2 (natToChars (charsToNat m + 1)) ++ '-' :: pad2 d))
      | none => .str s
    else
      match splitOnChar '/' s with
      | [a, b, c] =>
        -- `/^\d{4}\/\d{1,2}\/\d{1,2}$/` — the "2026/1/8" form
        if a.length = 4 ∧ allDig a ∧ dig12 b ∧ dig12 c then
          .str (a ++ '-' :: (pad2 b ++ '-' :: pad2 c))
        else .str s
      | [a, b] =>
        -- `/^\d{1,2}\/\d{1,2}$/` — the "1/8" form, fallback year 2026
        if dig12 a ∧ dig12 b then
          .str ('2' :: ['0', '2', '6'] ++ '-' :: (pad2 a ++ '-' :: pad2 b))
        else .str s
      | _ => .str s
  | .dateObj y m d =>
    -- `toISOString().split('T')[0]`
    .str (pad4 (natToChars y) ++ '-' :: (pad2 (natToChars m) ++ '-' :: pad2 (natToChars d)))
  | other => other

/-! ## Daily-log entries and the row parser -/

/-- One parsed daily-log record (`parseInputSheet` output shape). -/
structure Entry where
  date : Cell
  weight : Option ℚ
  waist : Option ℚ
  steps : Option ℚ
  calories_intake : Option ℚ
  protein : Option ℚ
  fat : Option ℚ
  carbs : Option ℚ
  notes : Cell
deriving DecidableEq

/-- `parseInputSheet`: skip the header row, skip rows whose date cell is
falsy, normalize the date, parse the numeric columns with `parseNum`
(columns: A=date, B=weight, C=waist, D=steps, E=calories, F=notes); the PFC
fields are always Absent at parse time. -/
def parseInputSheet (rows : List (List Cell)) : List Entry :=
  if rows.length < 2 then []
  else
    (rows.drop 1).filterMap fun row =>
      if truthyCell (getCell row 0) then
        some
          { date := normalizeDate (getCell row 0)
            weight := parseNum (getCell row 1)
            waist := parseNum (getCell row 2)
            steps := parseNum (getCell row 3)
            calories_intake := parseNum (getCell row 4)
            protein := none
            fat := none
            carbs := none
            notes := if truthyCell (getCell row 5) then getCell row 5 else Cell.str [] }
      else none

/-! ## Settings and goals -/

/-- The `goals` record.  All numeric fields are optional because the source
reads them with truthiness fallbacks (`goals.calories || 2700`) and builds
partial goal records (`settings.goals || {}`). -/
structure Goals where
  calories : Option ℚ
  calories_before_0120 : Option ℚ
  protein : Option ℚ
  fat : Option ℚ
  carbs : Option ℚ
  pfc_ratio : Option String
deriving DecidableEq

/-- The empty object `{}` used as a goals fallback. -/
def emptyGoals : Goals := ⟨none, none, none, none, none, none⟩

/-- The settings record (`getDefaultSettings` shape). -/
structure Settings where
  target_weight : ℚ
  target_steps : Option ℚ
  start_weight : ℚ
  start_date : Cell
  basal_metabolism : ℚ
  height : Option ℚ
  age : Option ℚ
  gender : String
  goals : Option Goals

/-- `getDefaultSettings` of the data module. -/
def getDefaultSettings : Settings :=
  { target_weight := 90
    target_steps := some 10000
    start_weight := 119.2
    start_date := Cell.str ('2' :: ['0', '2', '6', '-', '0', '1', '-', '0', '8'])
    basal_metabolism := 2200
    height := some 184
    age := some 30
    gender := "male"
    goals := some ⟨some 2700, some 2600, some 195, some 58, some 325, some "3:2:5"⟩ }

/-! ## Date-dependent calorie target -/

/-- `new Date(cell)` abstracted to the order-preserving day encoding; `none`
is an Invalid Date (NaN timestamp, all comparisons false).  Strings are
parsed in the canonical `Y-M-D` form (the only string form the callers
produce); other strings are invalid. -/
def jsDateVal (c : Cell) : Option ℤ :=
  match c with
  | .str s =>
    match splitOnChar '-' s with
    | [a, b, d] =>
      if ¬ a.isEmpty ∧ allDig a ∧ ¬ b.isEmpty ∧ allDig b ∧ ¬ d.isEmpty ∧ allDig d then
        some (dateEncode (charsToNat a) (charsToNat b) (charsToNat d))
      else none
    | _ => none
  | .dateObj y m d => some (dateEncode y m d)
  | .num q => some ⌊q⌋
  | .nullv => some 0
  | .undef => none

/-- The fixed change date `new Date('2026-01-20')`. -/
def changeDateVal : ℤ := dateEncode 2026 1 20

/-- `date >= changeDate` where either side may be an Invalid Date. -/
def jsGeDate (a b : Option ℤ) : Bool :=
  match a, b with
  | some x, some y => y ≤ x
  | _, _ => false

/-- `getCalorieTargetForDate`: the goal calories for a date, using
`goals.calories || 2700` on or after the fixed change date 2026-01-20 and
`goals.calories_before_0120 || 2600` strictly before it. -/
def getCalorieTargetForDate (dateCell : Cell) (settings : Settings) : ℚ :=
  let goals := settings.goals.getD emptyGoals
  if jsGeDate (jsDateVal dateCell) (some changeDateVal) then
    jsOrNum goals.calories 2700
  else
    jsOrNum goals.calories_before_0120 2600

/-! ## Estimated energy expenditure -/

/-- `calculateEstimatedBurn`: null for a falsy weight; otherwise the male
Harris-Benedict basal rate from weight and the (truthiness-defaulted) height
and age, scaled by the sedentary factor 1.2, plus 0.045 kcal per step for a
truthy step count, rounded.  The `gender` field is never read. -/
def calculateEstimatedBurn (weight steps : Option ℚ) (settings : Settings) : Option ℚ :=
  if ¬ truthyNum weight then none
  else
    let height := jsOrNum settings.height 184
    let age := jsOrNum settings.age 30
    let bmr := 88.362 + 13.397 * weight.getD 0 + 4.799 * height - 5.677 * age
    let stepsCalories := if truthyNum steps then steps.getD 0 * 0.045 else 0
    some ((jsRound (bmr * 1.2 + stepsCalories) : ℤ) : ℚ)

/-! ## Moving average -/

/-- Is the optional field value present and strictly positive
(`d[field] !== null && d[field] > 0`)? -/
def presentPos (o : Option ℚ) : Bool :=
  match o with
  | some q => 0 < q
  | none => false

/-- `Array.prototype.slice(start, stop)` for non-negative indices. -/
def jsSlice (l : List α) (start stop : ℕ) : List α := (l.take stop).drop start

/-- `calculateMovingAverage(data, field, days)`: for each index `i`, average
the present-and-positive field values of the trailing up-to-`days` entries
ending at `i`, rounded to 2 decimals; null if no value survives the filter.
`i + 1 - days` (truncated ℕ subtraction) is `Math.max(0, i - days + 1)`. -/
def calculateMovingAverage (data : List Entry) (field : Entry → Option ℚ) (days : ℕ) :
    List (Option ℚ) :=
  (List.range data.length).map fun i =>
    let start := i + 1 - days
    let slice := jsSlice data start (i + 1)
    let validValues := slice.filterMap fun d =>
      match field d with
      | some q => if 0 < q then some q else none
      | none => none
    if 0 < validValues.length then
      some (round2 (validValues.sum / validValues.length))
    else none

/-! ## Meals and weekly statistics -/

/-- One food item of a meal slot. -/
structure MealItem where
  protein : Option ℚ
  fat : Option ℚ
  carbs : Option ℚ

/-- The meal slots of one day (`breakfast`, `lunch`, `snack`, `dinner`). -/
structure DayMeals where
  breakfast : Option (List MealItem)
  lunch : Option (List MealItem)
  snack : Option (List MealItem)
  dinner : Option (List MealItem)

/-- Sum of `item.protein || 0` over a slot's items. -/
def slotProtein (slot : Option (List MealItem)) : ℚ :=
  match slot with
  | some items => (items.map fun it => it.protein.getD 0).sum
  | none => 0

/-- Sum of `item.fat || 0` over a slot's items. -/
def slotFat (slot : Option (List MealItem)) : ℚ :=
  match slot with
  | some items => (items.map fun it => it.fat.getD 0).sum
  | none => 0

/-- Sum of `item.carbs || 0` over a slot's items. -/
def slotCarbs (slot : Option (List MealItem)) : ℚ :=
  match slot with
  | some items => (items.map fun it => it.carbs.getD 0).sum
  | none => 0

/-- Protein grams of one day: the four slots in source order. -/
def dayProtein (dm : DayMeals) : ℚ :=
  slotProtein dm.breakfast + slotProtein dm.lunch + slotProtein dm.snack + slotProtein dm.dinner

/-- Fat grams of one day. -/
def dayFat (dm : DayMeals) : ℚ :=
  slotFat dm.breakfast + slotFat dm.lunch + slotFat dm.snack + slotFat dm.dinner

/-- Carb grams of one day. -/
def dayCarbs (dm : DayMeals) : ℚ :=
  slotCarbs dm.breakfast + slotCarbs dm.lunch + slotCarbs dm.snack + slotCarbs dm.dinner

/-- `dayHasData`: set while iterating the items, so it holds exactly when
some present slot has at least one item. -/
def dayHasData (dm : DayMeals) : Bool :=
  (match dm.breakfast with | some l => !l.isEmpty | none => false) ||
  (match dm.lunch with | some l => !l.isEmpty | none => false) ||
  (match dm.snack with | some l => !l.isEmpty | none => false) ||
  (match dm.dinner with | some l => !l.isEmpty | none => false)

/-- Macro totals and days-with-data count accumulated over the window
(the `last7Days.forEach` loop of `calculateWeeklyStats`; the per-item `+=`
accumulation is reassociated per day, which is sound for rational sums). -/
structure MacroAgg where
  totalProtein : ℚ
  totalFat : ℚ
  totalCarbs : ℚ
  daysWithData : ℕ

/-- Aggregate the meal macros of the window days. -/
def pfcAggregate (days : List Entry) (meals : Cell → Option DayMeals) : MacroAgg :=
  match days with
  | [] => ⟨0, 0, 0, 0⟩
  | day :: rest =>
    let r := pfcAggregate rest meals
    match meals day.date with
    | none => r
    | some dm =>
      ⟨r.totalProtein + dayProtein dm, r.totalFat + dayFat dm, r.totalCarbs + dayCarbs dm,
        r.daysWithData + (if dayHasData dm then 1 else 0)⟩

/-- The PFC ratio record (integer percentages, kept as rationals). -/
structure Pfc where
  protein : ℚ
  carbs : ℚ
  fat : ℚ
deriving DecidableEq

/-- The result record of `calculateWeeklyStats`. -/
structure WeeklyStats where
  avgCalories : ℚ
  avgWeight : ℚ
  pfc : Pfc
  goals : Goals

/-- `calculateWeeklyStats(data, settings, meals)`: averages of the
present-and-positive calorie and weight values of the trailing 7 entries
(0 when none), and the weekly PFC percentage split computed from the meal
map (grams to calories at 4/9/4, each macro's share rounded to an integer
percentage; all zero when the map is missing, no window day has meal data,
or the calorie total is not positive). -/
def calculateWeeklyStats (data : List Entry) (settings : Settings)
    (meals : Option (Cell → Option DayMeals)) : WeeklyStats :=
  let last7Days := data.drop (data.length - 7)
  let goals := settings.goals.getD ⟨some 2600, none, some 195, some 58, some 325, none⟩
  let validCalories := last7Days.filter fun d => presentPos d.calories_intake
  let avgCalories : ℚ :=
    if 0 < validCalories.length then
      ((jsRound ((validCalories.map fun d => d.calories_intake.getD 0).sum /
        validCalories.length) : ℤ) : ℚ)
    else 0
  let validWeight := last7Days.filter fun d => presentPos d.weight
  let avgWeight : ℚ :=
    if 0 < validWeight.length then
      (validWeight.map fun d => d.weight.getD 0).sum / validWeight.length
    else 0
  let pfc : Pfc :=
    match meals with
    | none => ⟨0, 0, 0⟩
    | some m =>
      let agg := pfcAggregate last7Days m
      if 0 < agg.daysWithData then
        let proteinCal := agg.totalProtein * 4
        let carbsCal := agg.totalCarbs * 4
        let fatCal := agg.totalFat * 9
        let totalCal := proteinCal + carbsCal + fatCal
        ⟨if 0 < totalCal then ((jsRound (proteinCal / totalCal * 100) : ℤ) : ℚ) else 0,
          if 0 < totalCal then ((jsRound (carbsCal / totalCal * 100) : ℤ) : ℚ) else 0,
          if 0 < totalCal then ((jsRound (fatCal / totalCal * 100) : ℤ) : ℚ) else 0⟩
      else ⟨0, 0, 0⟩
  { avgCalories := avgCalories
    avgWeight := round1 avgWeight
    pfc := pfc
    goals := goals }

/-! ## Weight change -/

/-- The result record of `calculateWeightChange`.  `changePercent` is kept as
the numeric value of the `toFixed(1)` string. -/
structure WeightChange where
  current : ℚ
  change : ℚ
  changePercent : ℚ
  toGoal : ℚ
deriving DecidableEq

/-- `calculateWeightChange(data, settings)`: the zero record when no entry
has a present, strictly positive weight; otherwise deltas of the last such
weight against the start and target weights, at one decimal. -/
def calculateWeightChange (data : List Entry) (settings : Settings) : WeightChange :=
  let validWeights := data.filter fun d => presentPos d.weight
  match validWeights.getLast? with
  | none => ⟨0, 0, 0, 0⟩
  | some lastE =>
    let current := lastE.weight.getD 0
    let startWeight := settings.start_weight
    let change := current - startWeight
    let changePercent := round1 (change / startWeight * 100)
    let toGoal := current - settings.target_weight
    ⟨current, round1 change, changePercent, round1 toGoal⟩

/-! ## PFC evaluation -/

/-- The verdict record returned by `evaluatePFC`. -/
structure Verdict where
  status : String
  text : String
deriving DecidableEq

/-- `evaluatePFC(log, goals)`: null when any macro field of the log is falsy
(absent or zero) or when goals is missing; otherwise flag a protein deficit
below −20 g, a fat excess above +20 g, a carb excess above +50 g, and return
"good 理想的" when unflagged and within ±20 g protein and ±15 g fat,
"warning" with the joined flag labels when flagged, and null in between.
Goal fields are read without guards, so a missing goal field makes the
corresponding delta NaN (`none`), which fails every comparison. -/
def evaluatePFC (log : Entry) (goals : Option Goals) : Option Verdict :=
  if ¬ truthyNum log.protein ∨ ¬ truthyNum log.fat ∨ ¬ truthyNum log.carbs ∨ goals = none then
    none
  else
    let g := goals.getD emptyGoals
    let proteinDiff := jsSub log.protein g.protein
    let fatDiff := jsSub log.fat g.fat
    let carbsDiff := jsSub log.carbs g.carbs
    let issues :=
      (if jsLt proteinDiff (some (-20)) then ["P不足"] else []) ++
      (if jsLt (some 20) fatDiff then ["F過多"] else []) ++
      (if jsLt (some 50) carbsDiff then ["C過多"] else [])
    if issues.isEmpty ∧ jsLe (jsAbs proteinDiff) (some 20) ∧ jsLe (jsAbs fatDiff) (some 15) then
      some ⟨"good", "理想的"⟩
    else if ¬ issues.isEmpty then
      some ⟨"warning", String.intercalate "・" issues⟩
    else none

/-! ## Data completeness check (`App.checkDataCompleteness`, charts module) -/

/-- A daily-log record as seen by the completeness check; dates are abstract
day numbers (consecutive integers, `today - i` being `i` days before the
reference date). -/
structure LogRec where
  date : ℤ
  weight : Option ℚ
  waist : Option ℚ
  calories_intake : Option ℚ
  steps : Option ℚ

/-- A completeness warning.  `missingFields` carries the field labels joined
into the HTML message by the source (message formatting is presentation and
kept symbolic here); it is empty for the `no_data` and `missing_meals`
warnings. -/
structure Warning where
  wdate : ℤ
  wtype : String
  missingFields : List String
deriving DecidableEq

/-- The checks of one day of the completeness loop: day `i` before the
reference date `today`.  A missing log row is warned about only for past
days; weight and waist are expected every day, calories, steps, and meal
detail only on past days. -/
def dayCheck (logs : List LogRec) (meals : Option (ℤ → Bool)) (today : ℤ) (i : ℕ) :
    List Warning :=
  let dateNum := today - (i : ℤ)
  let hasMeals := match meals with | some f => f dateNum | none => false
  match logs.find? fun l => l.date = dateNum with
  | none => if 0 < i then [⟨dateNum, "no_data", []⟩] else []
  | some log =>
    let mealWarn :=
      if (i != 0) && truthyNum log.calories_intake && !hasMeals then
        [⟨dateNum, "missing_meals", []⟩]
      else []
    let missingFields :=
      if i = 0 then
        (if ¬ truthyNum log.weight then ["体重"] else []) ++
        (if ¬ truthyNum log.waist then ["腹囲"] else [])
      else
        (if ¬ truthyNum log.weight then ["体重"] else []) ++
        (if ¬ truthyNum log.waist then ["腹囲"] else []) ++
        (if ¬ truthyNum log.calories_intake then ["カロリー"] else []) ++
        (if log.steps = none then ["歩数"] else [])
    mealWarn ++ (if ¬ missingFields.isEmpty then [⟨dateNum, "missing_fields", missingFields⟩] else [])

/-- `checkDataCompleteness(logs, meals)`: the warning list accumulated over
the reference date and the two preceding days (the display of the list is
presentation and out of scope). -/
def checkDataCompleteness (logs : List LogRec) (meals : Option (ℤ → Bool)) (today : ℤ) :
    List Warning :=
  dayCheck logs meals today 0 ++ dayCheck logs meals today 1 ++ dayCheck logs meals today 2

/-- A canonical date cell `Y-MM-DD` built from a calendar triple (year
unpadded, month and day zero-padded), the form the row parser outputs. -/
def isoDateCell (y m d : ℕ) : Cell :=
  Cell.str (natToChars y ++ '-' :: (pad2 (natToChars m) ++ '-' :: pad2 (natToChars d)))

/-- Characters allowed in a canonical (already normalized) date string:
dashes and decimal digits. -/
def canonChars (s : List Char) : Prop := ∀ ch ∈ s, ch = '-' ∨ isDig ch = true

/-! # Theorems -/

/-! ## General helper lemmas -/

theorem truthyNum_false_iff (o : Option ℚ) :
    truthyNum o = false ↔ o = none ∨ o = some 0 := by
  rcases o with _ | q
  · simp [truthyNum]
  · simp [truthyNum]

theorem jsOrNum_some (q d : ℚ) (h : q ≠ 0) : jsOrNum (some q) d = q := by
  simp [jsOrNum, truthyNum, h]

theorem digVal_digChar (k : ℕ) (h : k < 10) : digVal (digChar k) = k := by
  interval_cases k <;> decide

theorem isDig_digChar (k : ℕ) : isDig (digChar k) = true := by
  unfold digChar
  split_ifs <;> decide

theorem natToChars_ne_nil (n : ℕ) : natToChars n ≠ [] := by
  rw [natToChars]
  split_ifs <;> simp

theorem natToChars_all_dig (n : ℕ) : ∀ ch ∈ natToChars n, isDig ch = true := by
  induction n using Nat.strong_induction_on with
  | _ n ih =>
    rw [natToChars]
    split_ifs with h
    · intro ch hch
      simp only [List.mem_singleton] at hch
      subst hch
      exact isDig_digChar n
    · intro ch hch
      rcases List.mem_append.mp hch with h1 | h1
      · exact ih (n / 10) (Nat.div_lt_self (by omega) (by omega)) ch h1
      · simp only [List.mem_singleton] at h1
        subst h1
        exact isDig_digChar (n % 10)

theorem charsToNat_append_singleton (s : List Char) (c : Char) :
    charsToNat (s ++ [c]) = charsToNat s * 10 + digVal c := by
  simp [charsToNat, List.foldl_append]

theorem charsToNat_natToChars (n : ℕ) : charsToNat (natToChars n) = n := by
  induction n using Nat.strong_induction_on with
  | _ n ih =>
    rw [natToChars]
    split_ifs with h
    · simp [charsToNat, digVal_digChar n h]
    · rw [charsToNat_append_singleton,
        ih (n / 10) (Nat.div_lt_self (by omega) (by omega)),
        digVal_digChar (n % 10) (Nat.mod_lt _ (by omega))]
      omega

theorem charsToNat_replicate_zero (k : ℕ) (s : List Char) :
    charsToNat (List.replicate k '0' ++ s) = charsToNat s := by
  induction k with
  | zero => simp
  | succ k ih =>
    have : List.replicate (k + 1) '0' ++ s = '0' :: (List.replicate k '0' ++ s) := by
      simp [List.replicate_succ]
    rw [this]
    simpa [charsToNat] using ih

theorem charsToNat_pad2 (s : List Char) : charsToNat (pad2 s) = charsToNat s :=
  charsToNat_replicate_zero _ s

theorem pad2_ne_nil (s : List Char) (h : s ≠ []) : pad2 s ≠ [] := by
  simp [pad2, h]

theorem mem_pad2 (s : List Char) (ch : Char) (h : ch ∈ pad2 s) : ch = '0' ∨ ch ∈ s := by
  rcases List.mem_append.mp h with h1 | h1
  · exact Or.inl (List.eq_of_mem_replicate h1)
  · exact Or.inr h1

theorem mem_pad4 (s : List Char) (ch : Char) (h : ch ∈ pad4 s) : ch = '0' ∨ ch ∈ s := by
  rcases List.mem_append.mp h with h1 | h1
  · exact Or.inl (List.eq_of_mem_replicate h1)
  · exact Or.inr h1

theorem splitOnChar_of_not_mem (c : Char) (s : List Char) (h : c ∉ s) :
    splitOnChar c s = [s] := by
  induction s with
  | nil => rfl
  | cons x xs ih =>
    have hx : ¬ x = c := fun hxc => h (hxc ▸ List.mem_cons_self x xs)
    have hxs : c ∉ xs := fun hc => h (List.mem_cons_of_mem x hc)
    rw [splitOnChar, if_neg hx, ih hxs]

theorem splitOnChar_append (c : Char) (a r : List Char) (h : c ∉ a) :
    splitOnChar c (a ++ c :: r) = a :: splitOnChar c r := by
  induction a with
  | nil =>
    simp [splitOnChar]
  | cons x xs ih =>
    have hx : ¬ x = c := fun hxc => h (hxc ▸ List.mem_cons_self x xs)
    have hxs : c ∉ xs := fun hc => h (List.mem_cons_of_mem x hc)
    rw [List.cons_append, splitOnChar, if_neg hx, ih hxs]

/-! ## C1 — number normalization of the row parser -/

/-- C1 (counterexample): the older `data.js` row parser's number
normalization (`row[i] ? Number(row[i]) : null`) maps a cell containing the
number 0 to null (Absent), and a non-numeric string to NaN — contradicting
the claim for that parser.  The claim holds of the `parseNum` normalizer of
the newer parser (see the amended theorem). -/
theorem c1_dataJs_counterexample :
    dataJsCellNum (Cell.num 0) = NumVal.nullv ∧
    dataJsCellNum (Cell.str ['a', 'b', 'c']) = NumVal.nan := by
  constructor
  · rfl
  · rfl

/-- C1 (amended): the `parseNum` normalizer used by the newer Input-sheet
row parser maps null, undefined, and the empty string to Absent, and any
other cell to its JS numeric coercion with NaN collapsed to Absent — so a
numeric cell (in particular 0) parses to its present value, and a
non-numeric nonempty string parses to Absent. -/
theorem c1_parseNum_normalization :
    (∀ q : ℚ, parseNum (Cell.num q) = some q) ∧
    parseNum (Cell.str []) = none ∧
    parseNum Cell.nullv = none ∧
    parseNum Cell.undef = none ∧
    (∀ s : List Char, s ≠ [] → parseNum (Cell.str s) = strToNumber s) ∧
    parseNum (Cell.num 0) = some 0 := by
  refine ⟨fun q => rfl, rfl, rfl, rfl, fun s hs => ?_, rfl⟩
  match s, hs with
  | c :: cs, _ =>
    show (match strToNumber (c :: cs) with
      | some q => some q
      | none => none) = strToNumber (c :: cs)
    rcases strToNumber (c :: cs) with _ | q
    · rfl
    · rfl

/-- C1 witness: the hypotheses of the amended theorem hold at the concrete
string "5", where the normalizer returns the parsed value 5. -/
theorem c1_witness :
    parseNum (Cell.str ['5']) = strToNumber ['5'] ∧ strToNumber ['5'] = some 5 :=
  ⟨c1_parseNum_normalization.2.2.2.2.1 ['5'] (by decide), by decide⟩

/-! ## C10 — a present zero macro value yields Absent -/

/-- C10: `evaluatePFC` returns Absent whenever any macro field of the log is
the present value 0 (or when goals is absent): the truthiness guard treats a
present zero like a missing value, so such a day never receives a verdict. -/
theorem c10_zero_macro_absent (log : Entry) (goals : Option Goals)
    (h : log.protein = some 0 ∨ log.fat = some 0 ∨ log.carbs = some 0 ∨ goals = none) :
    evaluatePFC log goals = none := by
  unfold evaluatePFC
  rcases h with h | h | h | h <;> simp [h, truthyNum]

/-- C10 witness: a day with 0 g protein recorded (other macros present and
positive) gets no verdict. -/
theorem c10_witness :
    evaluatePFC ⟨Cell.nullv, none, none, none, none, some 0, some 90, some 300, Cell.nullv⟩
      getDefaultSettings.goals = none :=
  c10_zero_macro_absent _ _ (Or.inl rfl)

/-! ## C7 — macro evaluation -/

/-- C7 (counterexample): with every field present — protein 0 g, fat 90 g,
carbs 300 g against the goals 195/58/325 — the claim demands the protein
deficit (delta −195 < −20) and fat excess (delta +32 > 20) flags and hence a
"warning" verdict, but `evaluatePFC` returns Absent: its guard rejects the
present value 0. -/
theorem c7_counterexample :
    evaluatePFC ⟨Cell.nullv, none, none, none, none, some 0, some 90, some 300, Cell.nullv⟩
      (some ⟨some 2700, some 2600, some 195, some 58, some 325, some "3:2:5"⟩) = none ∧
    (none : Option Verdict) ≠ some ⟨"warning", "P不足・F過多"⟩ := by
  constructor
  · simp [evaluatePFC, truthyNum]
  · simp

set_option maxHeartbeats 1000000 in
/-- C7 (amended): for logs and goals with all macro fields present and the
log's macro values nonzero, `evaluatePFC` flags a protein deficit below
−20 g, a fat excess above +20 g, and a carb excess above +50 g, in that
order; it returns the "good/理想的" verdict when unflagged and within
±20 g protein and ±15 g fat, a "warning" verdict joining the raised flag
labels when flagged, and Absent in the remaining middle ground. -/
theorem c7_macro_evaluation (p f c gp gf gc : ℚ)
    (hp : p ≠ 0) (hf : f ≠ 0) (hc : c ≠ 0)
    (log : Entry) (hlp : log.protein = some p) (hlf : log.fat = some f)
    (hlc : log.carbs = some c)
    (g : Goals) (hgp : g.protein = some gp) (hgf : g.fat = some gf)
    (hgc : g.carbs = some gc) :
    evaluatePFC log (some g) =
      if ((if p - gp < -20 then ["P不足"] else []) ++
          (if 20 < f - gf then ["F過多"] else []) ++
          (if 50 < c - gc then ["C過多"] else [])) = [] then
        (if |p - gp| ≤ 20 ∧ |f - gf| ≤ 15 then some ⟨"good", "理想的"⟩ else none)
      else
        some ⟨"warning", String.intercalate "・"
          ((if p - gp < -20 then ["P不足"] else []) ++
           (if 20 < f - gf then ["F過多"] else []) ++
           (if 50 < c - gc then ["C過多"] else []))⟩ := by
  unfold evaluatePFC
  rw [hlp, hlf, hlc]
  have hp' : truthyNum (some p) = true := by simp [truthyNum, hp]
  have hf' : truthyNum (some f) = true := by simp [truthyNum, hf]
  have hc' : truthyNum (some c) = true := by simp [truthyNum, hc]
  rw [if_neg (by simp [hp', hf', hc'])]
  simp only [Option.getD_some, hgp, hgf, hgc, jsSub, jsLt, jsLe, jsAbs, Option.map_some']
  by_cases h1 : p - gp < -20 <;> by_cases h2 : 20 < f - gf <;> by_cases h3 : 50 < c - gc <;>
    by_cases h4 : |p - gp| ≤ 20 <;> by_cases h5 : |f - gf| ≤ 15 <;>
      simp [h1, h2, h3, h4, h5, List.isEmpty_iff]

/-- C7 witness: the claim's own example — grams 150/90/300 against goals
195/58/325 — produces the "warning" verdict carrying the protein-deficit
and fat-excess labels in that order. -/
theorem c7_witness :
    evaluatePFC ⟨Cell.nullv, none, none, none, none, some 150, some 90, some 300, Cell.nullv⟩
      (some ⟨some 2700, some 2600, some 195, some 58, some 325, some "3:2:5"⟩) =
      some ⟨"warning", "P不足・F過多"⟩ := by
  have h := c7_macro_evaluation 150 90 300 195 58 325 (by norm_num) (by norm_num) (by norm_num)
    ⟨Cell.nullv, none, none, none, none, some 150, some 90, some 300, Cell.nullv⟩ rfl rfl rfl
    ⟨some 2700, some 2600, some 195, some 58, some 325, some "3:2:5"⟩ rfl rfl rfl
  rw [h]
  norm_num
  decide

/-! ## C6 — estimated energy expenditure -/

/-- C6 (counterexample): for the present weight 0 the claim demands the
formula value, but `calculateEstimatedBurn` returns Absent — its `!weight`
guard treats the present value 0 like a missing weight. -/
theorem c6_counterexample :
    calculateEstimatedBurn (some 0) none getDefaultSettings = none ∧
    (none : Option ℚ) ≠
      some ((jsRound ((88.362 + 13.397 * 0 + 4.799 * 184 - 5.677 * 30) * 1.2 + 0) : ℤ) : ℚ) := by
  constructor
  · simp [calculateEstimatedBurn, truthyNum]
  · simp

/-- C6 (amended): `calculateEstimatedBurn` returns Absent when the weight is
Absent or the present value 0; otherwise it returns the rounded value of the
male Harris-Benedict basal rate (88.362 + 13.397·weight + 4.799·height −
5.677·age, with height and age truthiness-defaulted from the settings)
scaled by 1.2 plus 0.045 kcal per step (0 when steps is Absent), and the
result never depends on the `gender` settings field. -/
theorem c6_estimated_burn (steps : Option ℚ) (settings : Settings) :
    calculateEstimatedBurn none steps settings = none ∧
    calculateEstimatedBurn (some 0) steps settings = none ∧
    (∀ w : ℚ, w ≠ 0 →
      calculateEstimatedBurn (some w) steps settings =
        some ((jsRound ((88.362 + 13.397 * w + 4.799 * jsOrNum settings.height 184 -
          5.677 * jsOrNum settings.age 30) * 1.2 + steps.getD 0 * 0.045) : ℤ) : ℚ)) ∧
    (∀ w g, calculateEstimatedBurn w steps { settings with gender := g } =
      calculateEstimatedBurn w steps settings) := by
  refine ⟨by simp [calculateEstimatedBurn, truthyNum],
    by simp [calculateEstimatedBurn, truthyNum], fun w hw => ?_, fun w g => rfl⟩
  unfold calculateEstimatedBurn
  rw [if_neg (by simp [truthyNum, hw])]
  rcases steps with _ | st
  · norm_num [truthyNum]
  · rcases eq_or_ne st 0 with h0 | h0
    · simp [truthyNum, h0]
    · simp [truthyNum, h0]

/-- C6 witness: at weight 90 kg, 10000 steps, height 184 cm and age 30 the
burn is the deterministic integer 2858. -/
theorem c6_witness :
    calculateEstimatedBurn (some 90) (some 10000) getDefaultSettings = some 2858 := by
  have h := (c6_estimated_burn (some 10000) getDefaultSettings).2.2.1 90 (by norm_num)
  rw [h]
  have : jsRound ((88.362 + 13.397 * 90 + 4.799 * jsOrNum getDefaultSettings.height 184 -
      5.677 * jsOrNum getDefaultSettings.age 30) * 1.2 +
      (some (10000 : ℚ)).getD 0 * 0.045) = 2858 := by
    have hh : jsOrNum getDefaultSettings.height 184 = 184 := by decide
    have ha : jsOrNum getDefaultSettings.age 30 = 30 := by decide
    rw [hh, ha]
    unfold jsRound
    rw [Int.floor_eq_iff]
    norm_num
  rw [this]
  norm_num

/-! ## Rounding helper lemmas -/

theorem jsRound_eq (q : ℚ) (z : ℤ) (h1 : (z : ℚ) ≤ q + 1 / 2) (h2 : q + 1 / 2 < z + 1) :
    jsRound q = z := by
  unfold jsRound
  exact Int.floor_eq_iff.mpr ⟨h1, h2⟩

theorem round1_eq (q : ℚ) (z : ℤ) (h1 : (z : ℚ) ≤ q * 10 + 1 / 2)
    (h2 : q * 10 + 1 / 2 < z + 1) : round1 q = (z : ℚ) / 10 := by
  unfold round1
  rw [jsRound_eq (q * 10) z h1 h2]

theorem round2_eq (q : ℚ) (z : ℤ) (h1 : (z : ℚ) ≤ q * 100 + 1 / 2)
    (h2 : q * 100 + 1 / 2 < z + 1) : round2 q = (z : ℚ) / 100 := by
  unfold round2
  rw [jsRound_eq (q * 100) z h1 h2]

/-! ## C4 — weight change -/

/-- C4: `calculateWeightChange` returns the zero record when no entry has a
present, strictly positive weight; otherwise the current weight is the last
such entry's, the change against the start weight and the distance to the
target weight are rounded to one decimal, and the percent change is the
change over the start weight times 100 at one decimal. -/
theorem c4_weight_change (data : List Entry) (settings : Settings) :
    ((data.filter fun d => presentPos d.weight) = [] →
      calculateWeightChange data settings = ⟨0, 0, 0, 0⟩) ∧
    (∀ e w, (data.filter fun d => presentPos d.weight).getLast? = some e →
      e.weight = some w →
      calculateWeightChange data settings =
        ⟨w, round1 (w - settings.start_weight),
          round1 ((w - settings.start_weight) / settings.start_weight * 100),
          round1 (w - settings.target_weight)⟩) := by
  constructor
  · intro h
    unfold calculateWeightChange
    rw [h]
    rfl
  · intro e w hlast hw
    unfold calculateWeightChange
    simp only [hlast, hw, Option.getD_some]

/-- C4 witness: on the entries with weights 100 and 95 and the settings
startWeight 100, targetWeight 90 the result is
current 95, change −5.0, changePercent −5.0, toGoal 5.0. -/
theorem c4_witness :
    calculateWeightChange
      [⟨Cell.nullv, some 100, none, none, none, none, none, none, Cell.nullv⟩,
       ⟨Cell.nullv, some 95, none, none, none, none, none, none, Cell.nullv⟩]
      { getDefaultSettings with start_weight := 100, target_weight := 90 } =
      ⟨95, -5, -5, 5⟩ := by
  have h := (c4_weight_change
    [⟨Cell.nullv, some 100, none, none, none, none, none, none, Cell.nullv⟩,
     ⟨Cell.nullv, some 95, none, none, none, none, none, none, Cell.nullv⟩]
    { getDefaultSettings with start_weight := 100, target_weight := 90 }).2
    ⟨Cell.nullv, some 95, none, none, none, none, none, none, Cell.nullv⟩ 95
    (by decide) rfl
  rw [h]
  have h1 : round1 ((95 : ℚ) - 100) = -5 := by
    rw [round1_eq (95 - 100) (-50) (by norm_num) (by norm_num)]
    norm_num
  have h2 : round1 (((95 : ℚ) - 100) / 100 * 100) = -5 := by
    rw [round1_eq ((95 - 100) / 100 * 100) (-50) (by norm_num) (by norm_num)]
    norm_num
  have h3 : round1 ((95 : ℚ) - 90) = 5 := by
    rw [round1_eq (95 - 90) 50 (by norm_num) (by norm_num)]
    norm_num
  rw [h1, h2, h3]


/-! ## C2 — moving average -/

theorem filterMap_pos_eq_map (field : Entry → Option ℚ) (l : List Entry)
    (h : ∀ e ∈ l, ∃ q, field e = some q ∧ 0 < q) :
    (l.filterMap fun d =>
      match field d with
      | some q => if 0 < q then some q else none
      | none => none) = l.map fun e => (field e).getD 0 := by
  induction l with
  | nil => rfl
  | cons a t ih =>
    obtain ⟨q, hq, hpos⟩ := h a (List.mem_cons_self a t)
    rw [List.filterMap_cons, List.map_cons, hq]
    simp only [hpos, if_true, Option.getD_some]
    rw [ih fun e he => h e (List.mem_cons_of_mem a he)]

/-- C2: `calculateMovingAverage(entries, field, 7)` is index-aligned with its
input (same length); at each index it averages the present-and-positive
field values of the trailing up-to-7 entries ending there, rounded to two
decimals, with Absent when nothing survives the filter; and on an input of
length at most 7 whose values are all present and positive, the last output
is the simple mean of all the values rounded to two decimals. -/
theorem c2_moving_average (data : List Entry) (field : Entry → Option ℚ) :
    (calculateMovingAverage data field 7).length = data.length ∧
    (∀ i, i < data.length →
      (calculateMovingAverage data field 7)[i]? =
        some (
          if 0 < (((data.take (i + 1)).drop (i + 1 - 7)).filterMap fun d =>
              match field d with
              | some q => if 0 < q then some q else none
              | none => none).length then
            some (round2 ((((data.take (i + 1)).drop (i + 1 - 7)).filterMap fun d =>
                match field d with
                | some q => if 0 < q then some q else none
                | none => none).sum /
              (((data.take (i + 1)).drop (i + 1 - 7)).filterMap fun d =>
                match field d with
                | some q => if 0 < q then some q else none
                | none => none).length))
          else none)) ∧
    (0 < data.length → data.length ≤ 7 →
      (∀ e ∈ data, ∃ q, field e = some q ∧ 0 < q) →
      (calculateMovingAverage data field 7)[data.length - 1]? =
        some (some (round2 ((data.map fun e => (field e).getD 0).sum / data.length)))) := by
  have hlen : (calculateMovingAverage data field 7).length = data.length := by
    simp [calculateMovingAverage]
  have hget : ∀ i, i < data.length →
      (calculateMovingAverage data field 7)[i]? =
        some (
          if 0 < (((data.take (i + 1)).drop (i + 1 - 7)).filterMap fun d =>
              match field d with
              | some q => if 0 < q then some q else none
              | none => none).length then
            some (round2 ((((data.take (i + 1)).drop (i + 1 - 7)).filterMap fun d =>
                match field d with
                | some q => if 0 < q then some q else none
                | none => none).sum /
              (((data.take (i + 1)).drop (i + 1 - 7)).filterMap fun d =>
                match field d with
                | some q => if 0 < q then some q else none
                | none => none).length))
          else none) := by
    intro i hi
    unfold calculateMovingAverage
    rw [List.getElem?_map, List.getElem?_range hi]
    rfl
  refine ⟨hlen, hget, fun hpos hle hall => ?_⟩
  rw [hget (data.length - 1) (by omega)]
  have htake : data.take (data.length - 1 + 1) = data := by
    rw [show data.length - 1 + 1 = data.length from by omega]
    exact List.take_length data
  have hdrop : data.length - 1 + 1 - 7 = 0 := by omega
  rw [htake, hdrop, List.drop_zero, filterMap_pos_eq_map field data hall]
  have hmaplen : (data.map fun e => (field e).getD 0).length = data.length :=
    List.length_map data _
  rw [hmaplen]
  simp [hpos]

/-- C2 witness: on two entries with weights 1 and 2 (all present and
positive) the output is index-aligned and its last value is the rounded mean
3/2 of the two weights. -/
theorem c2_witness :
    (calculateMovingAverage
      [⟨Cell.nullv, some 1, none, none, none, none, none, none, Cell.nullv⟩,
       ⟨Cell.nullv, some 2, none, none, none, none, none, none, Cell.nullv⟩]
      (fun e => e.weight) 7)[1]? = some (some (round2 (3 / 2))) := by
  have h := (c2_moving_average
    [⟨Cell.nullv, some 1, none, none, none, none, none, none, Cell.nullv⟩,
     ⟨Cell.nullv, some 2, none, none, none, none, none, none, Cell.nullv⟩]
    (fun e => e.weight)).2.2 (by norm_num) (by norm_num)
    (by
      intro e he
      fin_cases he
      · exact ⟨1, rfl, by norm_num⟩
      · exact ⟨2, rfl, by norm_num⟩)
  norm_num at h
  exact h

/-! ## C3 — weekly PFC percentages -/

theorem jsRound_le (q : ℚ) : (jsRound q : ℚ) ≤ q + 1 / 2 := Int.floor_le _

theorem lt_jsRound (q : ℚ) : q - 1 / 2 < (jsRound q : ℚ) := by
  have h := Int.lt_floor_add_one (q + 1 / 2)
  unfold jsRound
  linarith

/-- Three integer-rounded shares of an exact 100% split sum to 100 ± 1. -/
theorem sum_jsRound_bounds (x y z : ℚ) (h : x + y + z = 100) :
    (99 : ℚ) ≤ (jsRound x : ℚ) + (jsRound y : ℚ) + (jsRound z : ℚ) ∧
    (jsRound x : ℚ) + (jsRound y : ℚ) + (jsRound z : ℚ) ≤ 101 := by
  have hx1 := jsRound_le x
  have hx2 := lt_jsRound x
  have hy1 := jsRound_le y
  have hy2 := lt_jsRound y
  have hz1 := jsRound_le z
  have hz2 := lt_jsRound z
  have hlo : (197 : ℤ) < 2 * (jsRound x + jsRound y + jsRound z) := by
    have : (197 : ℚ) < 2 * ((jsRound x : ℚ) + (jsRound y : ℚ) + (jsRound z : ℚ)) := by
      linarith
    exact_mod_cast this
  have hhi : 2 * (jsRound x + jsRound y + jsRound z) ≤ (203 : ℤ) := by
    have : 2 * ((jsRound x : ℚ) + (jsRound y : ℚ) + (jsRound z : ℚ)) ≤ (203 : ℚ) := by
      linarith
    exact_mod_cast this
  constructor
  · have : (99 : ℤ) ≤ jsRound x + jsRound y + jsRound z := by omega
    exact_mod_cast this
  · have : jsRound x + jsRound y + jsRound z ≤ (101 : ℤ) := by omega
    exact_mod_cast this

theorem dayMacros_zero_of_no_data (dm : DayMeals) (h : dayHasData dm = false) :
    dayProtein dm = 0 ∧ dayFat dm = 0 ∧ dayCarbs dm = 0 := by
  rcases dm with ⟨b, l, s, d⟩
  simp only [dayHasData, Bool.or_eq_false_iff] at h
  obtain ⟨⟨⟨hb, hl⟩, hs⟩, hd⟩ := h
  have hb' : b = none ∨ b = some [] := by
    rcases b with _ | lb
    · exact Or.inl rfl
    · simp only [Bool.not_eq_false'] at hb
      exact Or.inr (by rw [List.isEmpty_iff.mp hb])
  have hl' : l = none ∨ l = some [] := by
    rcases l with _ | ll
    · exact Or.inl rfl
    · simp only [Bool.not_eq_false'] at hl
      exact Or.inr (by rw [List.isEmpty_iff.mp hl])
  have hs' : s = none ∨ s = some [] := by
    rcases s with _ | ls
    · exact Or.inl rfl
    · simp only [Bool.not_eq_false'] at hs
      exact Or.inr (by rw [List.isEmpty_iff.mp hs])
  have hd' : d = none ∨ d = some [] := by
    rcases d with _ | ld
    · exact Or.inl rfl
    · simp only [Bool.not_eq_false'] at hd
      exact Or.inr (by rw [List.isEmpty_iff.mp hd])
  rcases hb' with hb' | hb' <;> rcases hl' with hl' | hl' <;>
    rcases hs' with hs' | hs' <;> rcases hd' with hd' | hd' <;>
      subst hb' <;> subst hl' <;> subst hs' <;> subst hd' <;>
        simp [dayProtein, dayFat, dayCarbs, slotProtein, slotFat, slotCarbs]

theorem pfcAggregate_of_no_meals (days : List Entry) (m : Cell → Option DayMeals)
    (h : ∀ e ∈ days, m e.date = none) : pfcAggregate days m = ⟨0, 0, 0, 0⟩ := by
  induction days with
  | nil => rfl
  | cons a t ih =>
    rw [pfcAggregate, ih fun e he => h e (List.mem_cons_of_mem a he),
      h a (List.mem_cons_self a t)]

theorem pfcAggregate_cons_none (a : Entry) (t : List Entry) (m : Cell → Option DayMeals)
    (hm : m a.date = none) : pfcAggregate (a :: t) m = pfcAggregate t m := by
  rw [pfcAggregate, hm]

theorem pfcAggregate_cons_some (a : Entry) (t : List Entry) (m : Cell → Option DayMeals)
    (dm : DayMeals) (hm : m a.date = some dm) :
    pfcAggregate (a :: t) m =
      ⟨(pfcAggregate t m).totalProtein + dayProtein dm,
        (pfcAggregate t m).totalFat + dayFat dm,
        (pfcAggregate t m).totalCarbs + dayCarbs dm,
        (pfcAggregate t m).daysWithData + if dayHasData dm then 1 else 0⟩ := by
  rw [pfcAggregate, hm]

theorem pfcAggregate_totals_zero (days : List Entry) (m : Cell → Option DayMeals)
    (h : (pfcAggregate days m).daysWithData = 0) :
    (pfcAggregate days m).totalProtein = 0 ∧ (pfcAggregate days m).totalFat = 0 ∧
    (pfcAggregate days m).totalCarbs = 0 := by
  induction days with
  | nil => exact ⟨rfl, rfl, rfl⟩
  | cons a t ih =>
    rcases hm : m a.date with _ | dm
    · rw [pfcAggregate_cons_none a t m hm] at h ⊢
      exact ih h
    · rw [pfcAggregate_cons_some a t m dm hm] at h ⊢
      dsimp only at h ⊢
      rcases hdd : dayHasData dm with _ | _
      · simp at h
        obtain ⟨hdw, _⟩ := h
        obtain ⟨h1, h2, h3⟩ := ih hdw
        obtain ⟨z1, z2, z3⟩ := dayMacros_zero_of_no_data dm hdd
        simp [h1, h2, h3, z1, z2, z3]
      · simp [hdd] at h

theorem calculateWeeklyStats_pfc (data : List Entry) (settings : Settings)
    (m : Cell → Option DayMeals) :
    (calculateWeeklyStats data settings (some m)).pfc =
      (if 0 < (pfcAggregate (data.drop (data.length - 7)) m).daysWithData then
        ⟨if 0 < (pfcAggregate (data.drop (data.length - 7)) m).totalProtein * 4 +
            (pfcAggregate (data.drop (data.length - 7)) m).totalCarbs * 4 +
            (pfcAggregate (data.drop (data.length - 7)) m).totalFat * 9 then
          ((jsRound ((pfcAggregate (data.drop (data.length - 7)) m).totalProtein * 4 /
            ((pfcAggregate (data.drop (data.length - 7)) m).totalProtein * 4 +
              (pfcAggregate (data.drop (data.length - 7)) m).totalCarbs * 4 +
              (pfcAggregate (data.drop (data.length - 7)) m).totalFat * 9) * 100) : ℤ) : ℚ)
          else 0,
        if 0 < (pfcAggregate (data.drop (data.length - 7)) m).totalProtein * 4 +
            (pfcAggregate (data.drop (data.length - 7)) m).totalCarbs * 4 +
            (pfcAggregate (data.drop (data.length - 7)) m).totalFat * 9 then
          ((jsRound ((pfcAggregate (data.drop (data.length - 7)) m).totalCarbs * 4 /
            ((pfcAggregate (data.drop (data.length - 7)) m).totalProtein * 4 +
              (pfcAggregate (data.drop (data.length - 7)) m).totalCarbs * 4 +
              (pfcAggregate (data.drop (data.length - 7)) m).totalFat * 9) * 100) : ℤ) : ℚ)
          else 0,
        if 0 < (pfcAggregate (data.drop (data.length - 7)) m).totalProtein * 4 +
            (pfcAggregate (data.drop (data.length - 7)) m).totalCarbs * 4 +
            (pfcAggregate (data.drop (data.length - 7)) m).totalFat * 9 then
          ((jsRound ((pfcAggregate (data.drop (data.length - 7)) m).totalFat * 9 /
            ((pfcAggregate (data.drop (data.length - 7)) m).totalProtein * 4 +
              (pfcAggregate (data.drop (data.length - 7)) m).totalCarbs * 4 +
              (pfcAggregate (data.drop (data.length - 7)) m).totalFat * 9) * 100) : ℤ) : ℚ)
          else 0⟩
      else ⟨0, 0, 0⟩) := rfl

/-- C3: in `calculateWeeklyStats`, the PFC record is exactly `{0,0,0}` when
no date of the trailing 7-entry window has meal data; and whenever the
summed macro grams over the window are non-negative and not all zero, the
three integer percentages (grams converted to calories at 4/9/4 and each
share rounded) sum to 100 ± 1. -/
theorem c3_weekly_pfc (data : List Entry) (settings : Settings)
    (m : Cell → Option DayMeals) :
    ((∀ e ∈ data.drop (data.length - 7), m e.date = none) →
      (calculateWeeklyStats data settings (some m)).pfc = ⟨0, 0, 0⟩) ∧
    (0 ≤ (pfcAggregate (data.drop (data.length - 7)) m).totalProtein →
      0 ≤ (pfcAggregate (data.drop (data.length - 7)) m).totalFat →
      0 ≤ (pfcAggregate (data.drop (data.length - 7)) m).totalCarbs →
      (pfcAggregate (data.drop (data.length - 7)) m).totalProtein +
        (pfcAggregate (data.drop (data.length - 7)) m).totalFat +
        (pfcAggregate (data.drop (data.length - 7)) m).totalCarbs ≠ 0 →
      (99 : ℚ) ≤ (calculateWeeklyStats data settings (some m)).pfc.protein +
          (calculateWeeklyStats data settings (some m)).pfc.fat +
          (calculateWeeklyStats data settings (some m)).pfc.carbs ∧
        (calculateWeeklyStats data settings (some m)).pfc.protein +
          (calculateWeeklyStats data settings (some m)).pfc.fat +
          (calculateWeeklyStats data settings (some m)).pfc.carbs ≤ 101) := by
  constructor
  · intro h
    rw [calculateWeeklyStats_pfc, pfcAggregate_of_no_meals _ m h]
    rfl
  · intro hP hF hC hsum
    have hd : 0 < (pfcAggregate (data.drop (data.length - 7)) m).daysWithData := by
      rcases Nat.eq_zero_or_pos (pfcAggregate (data.drop (data.length - 7)) m).daysWithData
        with h0 | h0
      · obtain ⟨z1, z2, z3⟩ := pfcAggregate_totals_zero (data.drop (data.length - 7)) m h0
        exact absurd (by rw [z1, z2, z3]; ring) hsum
      · exact h0
    have hT : 0 < (pfcAggregate (data.drop (data.length - 7)) m).totalProtein * 4 +
        (pfcAggregate (data.drop (data.length - 7)) m).totalCarbs * 4 +
        (pfcAggregate (data.drop (data.length - 7)) m).totalFat * 9 := by
      rcases lt_or_eq_of_le (by linarith :
        (0 : ℚ) ≤ (pfcAggregate (data.drop (data.length - 7)) m).totalProtein +
          (pfcAggregate (data.drop (data.length - 7)) m).totalFat +
          (pfcAggregate (data.drop (data.length - 7)) m).totalCarbs) with h0 | h0
      · linarith
      · exact absurd h0.symm hsum
    have hpfc : (calculateWeeklyStats data settings (some m)).pfc =
        ⟨((jsRound ((pfcAggregate (data.drop (data.length - 7)) m).totalProtein * 4 /
            ((pfcAggregate (data.drop (data.length - 7)) m).totalProtein * 4 +
              (pfcAggregate (data.drop (data.length - 7)) m).totalCarbs * 4 +
              (pfcAggregate (data.drop (data.length - 7)) m).totalFat * 9) * 100) : ℤ) : ℚ),
          ((jsRound ((pfcAggregate (data.drop (data.length - 7)) m).totalCarbs * 4 /
            ((pfcAggregate (data.drop (data.length - 7)) m).totalProtein * 4 +
              (pfcAggregate (data.drop (data.length - 7)) m).totalCarbs * 4 +
              (pfcAggregate (data.drop (data.length - 7)) m).totalFat * 9) * 100) : ℤ) : ℚ),
          ((jsRound ((pfcAggregate (data.drop (data.length - 7)) m).totalFat * 9 /
            ((pfcAggregate (data.drop (data.length - 7)) m).totalProtein * 4 +
              (pfcAggregate (data.drop (data.length - 7)) m).totalCarbs * 4 +
              (pfcAggregate (data.drop (data.length - 7)) m).totalFat * 9) * 100) : ℤ) : ℚ)⟩ := by
      rw [calculateWeeklyStats_pfc, if_pos hd]
      simp only [if_pos hT]
    rw [hpfc]
    have hT' : (pfcAggregate (data.drop (data.length - 7)) m).totalProtein * 4 +
        (pfcAggregate (data.drop (data.length - 7)) m).totalCarbs * 4 +
        (pfcAggregate (data.drop (data.length - 7)) m).totalFat * 9 ≠ 0 := ne_of_gt hT
    have hsplit : (pfcAggregate (data.drop (data.length - 7)) m).totalProtein * 4 /
          ((pfcAggregate (data.drop (data.length - 7)) m).totalProtein * 4 +
            (pfcAggregate (data.drop (data.length - 7)) m).totalCarbs * 4 +
            (pfcAggregate (data.drop (data.length - 7)) m).totalFat * 9) * 100 +
        (pfcAggregate (data.drop (data.length - 7)) m).totalFat * 9 /
          ((pfcAggregate (data.drop (data.length - 7)) m).totalProtein * 4 +
            (pfcAggregate (data.drop (data.length - 7)) m).totalCarbs * 4 +
            (pfcAggregate (data.drop (data.length - 7)) m).totalFat * 9) * 100 +
        (pfcAggregate (data.drop (data.length - 7)) m).totalCarbs * 4 /
          ((pfcAggregate (data.drop (data.length - 7)) m).totalProtein * 4 +
            (pfcAggregate (data.drop (data.length - 7)) m).totalCarbs * 4 +
            (pfcAggregate (data.drop (data.length - 7)) m).totalFat * 9) * 100 = 100 := by
      field_simp
      ring
    exact sum_jsRound_bounds _ _ _ hsplit

/-- C3 witness: a two-day log where day 1 carries meals totalling 100 g
protein, 35 g fat, 170 g carbs — the rounded percentages sum to within
100 ± 1; and on a log whose window has no meal data the record is `{0,0,0}`. -/
theorem c3_witness :
    ((99 : ℚ) ≤ (calculateWeeklyStats
        [⟨Cell.num 1, none, none, none, some 2000, none, none, none, Cell.nullv⟩,
         ⟨Cell.num 2, none, none, none, none, none, none, none, Cell.nullv⟩]
        getDefaultSettings
        (some fun c => if c = Cell.num 1 then
          some ⟨some [⟨some 30, some 10, some 50⟩, ⟨some 20, some 5, some 40⟩],
            some [], none, some [⟨some 50, some 20, some 80⟩]⟩
          else none)).pfc.protein +
      (calculateWeeklyStats
        [⟨Cell.num 1, none, none, none, some 2000, none, none, none, Cell.nullv⟩,
         ⟨Cell.num 2, none, none, none, none, none, none, none, Cell.nullv⟩]
        getDefaultSettings
        (some fun c => if c = Cell.num 1 then
          some ⟨some [⟨some 30, some 10, some 50⟩, ⟨some 20, some 5, some 40⟩],
            some [], none, some [⟨some 50, some 20, some 80⟩]⟩
          else none)).pfc.fat +
      (calculateWeeklyStats
        [⟨Cell.num 1, none, none, none, some 2000, none, none, none, Cell.nullv⟩,
         ⟨Cell.num 2, none, none, none, none, none, none, none, Cell.nullv⟩]
        getDefaultSettings
        (some fun c => if c = Cell.num 1 then
          some ⟨some [⟨some 30, some 10, some 50⟩, ⟨some 20, some 5, some 40⟩],
            some [], none, some [⟨some 50, some 20, some 80⟩]⟩
          else none)).pfc.carbs) ∧
    (calculateWeeklyStats
      [⟨Cell.num 1, none, none, none, some 2000, none, none, none, Cell.nullv⟩]
      getDefaultSettings (some fun _ => none)).pfc = ⟨0, 0, 0⟩ := by
  have hagg : pfcAggregate
      (([⟨Cell.num 1, none, none, none, some 2000, none, none, none, Cell.nullv⟩,
         ⟨Cell.num 2, none, none, none, none, none, none, none, Cell.nullv⟩] :
          List Entry).drop
        (([⟨Cell.num 1, none, none, none, some 2000, none, none, none, Cell.nullv⟩,
           ⟨Cell.num 2, none, none, none, none, none, none, none, Cell.nullv⟩] :
            List Entry).length - 7))
      (fun c => if c = Cell.num 1 then
        some ⟨some [⟨some 30, some 10, some 50⟩, ⟨some 20, some 5, some 40⟩],
          some [], none, some [⟨some 50, some 20, some 80⟩]⟩
        else none) = ⟨100, 35, 170, 1⟩ := by
    norm_num [pfcAggregate, dayProtein, dayFat, dayCarbs,
      slotProtein, slotFat, slotCarbs, dayHasData]
  constructor
  · exact ((c3_weekly_pfc
      [⟨Cell.num 1, none, none, none, some 2000, none, none, none, Cell.nullv⟩,
       ⟨Cell.num 2, none, none, none, none, none, none, none, Cell.nullv⟩]
      getDefaultSettings
      (fun c => if c = Cell.num 1 then
        some ⟨some [⟨some 30, some 10, some 50⟩, ⟨some 20, some 5, some 40⟩],
          some [], none, some [⟨some 50, some 20, some 80⟩]⟩
        else none)).2 (by rw [hagg]; norm_num) (by rw [hagg]; norm_num)
      (by rw [hagg]; norm_num) (by rw [hagg]; norm_num)).1
  · exact (c3_weekly_pfc
      [⟨Cell.num 1, none, none, none, some 2000, none, none, none, Cell.nullv⟩]
      getDefaultSettings (fun _ => none)).1 (fun e _ => rfl)

/-! ## C5 — date-dependent calorie target -/

theorem ne_dash_of_isDig (ch : Char) (h : isDig ch = true) : ch ≠ '-' := by
  intro hch
  subst hch
  exact absurd h (by decide)

theorem dash_not_mem_natToChars (n : ℕ) : '-' ∉ natToChars n := fun h =>
  ne_dash_of_isDig '-' (natToChars_all_dig n '-' h) rfl

theorem dash_not_mem_pad2_natToChars (n : ℕ) : '-' ∉ pad2 (natToChars n) := by
  intro h
  rcases mem_pad2 (natToChars n) '-' h with h1 | h1
  · exact absurd h1.symm (by decide)
  · exact dash_not_mem_natToChars n h1

theorem jsDateVal_isoDateCell (y m d : ℕ) :
    jsDateVal (isoDateCell y m d) = some (dateEncode y m d) := by
  unfold jsDateVal isoDateCell
  dsimp only
  rw [splitOnChar_append '-' (natToChars y) _ (dash_not_mem_natToChars y),
    splitOnChar_append '-' (pad2 (natToChars m)) _ (dash_not_mem_pad2_natToChars m),
    splitOnChar_of_not_mem '-' _ (dash_not_mem_pad2_natToChars d)]
  have hcond : ¬ (natToChars y).isEmpty = true ∧ allDig (natToChars y) = true ∧
      ¬ (pad2 (natToChars m)).isEmpty = true ∧ allDig (pad2 (natToChars m)) = true ∧
      ¬ (pad2 (natToChars d)).isEmpty = true ∧ allDig (pad2 (natToChars d)) = true := by
    refine ⟨?_, ?_, ?_, ?_, ?_, ?_⟩
    · simp [List.isEmpty_iff, natToChars_ne_nil y]
    · exact List.all_eq_true.mpr (natToChars_all_dig y)
    · simp [List.isEmpty_iff, pad2_ne_nil _ (natToChars_ne_nil m)]
    · refine List.all_eq_true.mpr fun ch hch => ?_
      rcases mem_pad2 _ ch hch with h1 | h1
      · subst h1
        decide
      · exact natToChars_all_dig m ch h1
    · simp [List.isEmpty_iff, pad2_ne_nil _ (natToChars_ne_nil d)]
    · refine List.all_eq_true.mpr fun ch hch => ?_
      rcases mem_pad2 _ ch hch with h1 | h1
      · subst h1
        decide
      · exact natToChars_all_dig d ch h1
  dsimp only
  rw [if_pos hcond, charsToNat_natToChars, charsToNat_pad2, charsToNat_pad2,
    charsToNat_natToChars, charsToNat_natToChars]

/-- C5: `getCalorieTargetForDate` applied to a canonical date returns
`goals.calories_before_0120` exactly when the date is strictly before the
fixed change date 2026-01-20, and `goals.calories` on the change date and
every later date (for goals whose calorie fields are present and nonzero —
the source reads them with `|| 2700` / `|| 2600` truthiness fallbacks). -/
theorem c5_calorie_target (y m d : ℕ) (hm : m ≤ 99) (hd : d ≤ 99)
    (settings : Settings) (g : Goals) (cb cc : ℚ)
    (hg : settings.goals = some g) (hcc : g.calories = some cc) (hcc0 : cc ≠ 0)
    (hcb : g.calories_before_0120 = some cb) (hcb0 : cb ≠ 0) :
    getCalorieTargetForDate (isoDateCell y m d) settings =
      if y < 2026 ∨ (y = 2026 ∧ (m < 1 ∨ (m = 1 ∧ d < 20))) then cb else cc := by
  unfold getCalorieTargetForDate
  rw [jsDateVal_isoDateCell, hg]
  simp only [Option.getD_some]
  by_cases hlt : y < 2026 ∨ (y = 2026 ∧ (m < 1 ∨ (m = 1 ∧ d < 20)))
  · rw [if_pos hlt]
    have hge : ¬ changeDateVal ≤ dateEncode y m d := by
      unfold changeDateVal dateEncode
      push_cast
      omega
    have : jsGeDate (some (dateEncode y m d)) (some changeDateVal) = false := by
      simp [jsGeDate, hge]
    rw [this]
    simp only [Bool.false_eq_true, if_false]
    rw [hcb, jsOrNum_some cb 2600 hcb0]
  · rw [if_neg hlt]
    have hge : changeDateVal ≤ dateEncode y m d := by
      unfold changeDateVal dateEncode
      push_cast
      omega
    have : jsGeDate (some (dateEncode y m d)) (some changeDateVal) = true := by
      simp [jsGeDate, hge]
    rw [this]
    simp only [if_true]
    rw [hcc, jsOrNum_some cc 2700 hcc0]

/-- C5 witness: with the default goals, 2026-01-19 is billed at 2600 kcal
and the change date 2026-01-20 itself at 2700 kcal. -/
theorem c5_witness :
    getCalorieTargetForDate (isoDateCell 2026 1 19) getDefaultSettings = 2600 ∧
    getCalorieTargetForDate (isoDateCell 2026 1 20) getDefaultSettings = 2700 := by
  constructor
  · have h := c5_calorie_target 2026 1 19 (by norm_num) (by norm_num) getDefaultSettings
      ⟨some 2700, some 2600, some 195, some 58, some 325, some "3:2:5"⟩ 2600 2700
      rfl rfl (by norm_num) rfl (by norm_num)
    rw [h]
    norm_num
  · have h := c5_calorie_target 2026 1 20 (by norm_num) (by norm_num) getDefaultSettings
      ⟨some 2700, some 2600, some 195, some 58, some 325, some "3:2:5"⟩ 2600 2700
      rfl rfl (by norm_num) rfl (by norm_num)
    rw [h]
    norm_num

/-! ## C8 — data completeness check -/

theorem mem_ite_singleton {α : Type} {w x : α} {c : Prop} [Decidable c]
    (h : w ∈ if c then [x] else []) : c ∧ w = x := by
  split at h
  · exact ⟨by assumption, List.mem_singleton.mp h⟩
  · exact absurd h (List.not_mem_nil w)

theorem dayCheck_spec (logs : List LogRec) (meals : Option (ℤ → Bool)) (today : ℤ)
    (i : ℕ) (w : Warning) (hw : w ∈ dayCheck logs meals today i) :
    w.wdate = today - (i : ℤ) ∧
    (w.wtype = "no_data" → i ≠ 0) ∧
    (w.wtype = "missing_meals" → i ≠ 0) ∧
    ("カロリー" ∈ w.missingFields → i ≠ 0) ∧
    ("歩数" ∈ w.missingFields → i ≠ 0) := by
  unfold dayCheck at hw
  dsimp only at hw
  rcases hfind : logs.find? fun l => l.date = today - (i : ℤ) with _ | log <;>
    rw [hfind] at hw <;> dsimp only at hw
  · obtain ⟨hi, hww⟩ := mem_ite_singleton hw
    subst hww
    exact ⟨rfl, fun _ => by omega, fun h => by simp at h,
      fun h => by simp at h, fun h => by simp at h⟩
  · rcases List.mem_append.mp hw with hw1 | hw1
    · obtain ⟨hc, hww⟩ := mem_ite_singleton hw1
      subst hww
      have hi : i ≠ 0 := by
        simp only [Bool.and_eq_true, bne_iff_ne, ne_eq] at hc
        exact hc.1.1
      exact ⟨rfl, fun h => by simp at h, fun _ => hi,
        fun h => by simp at h, fun h => by simp at h⟩
    · obtain ⟨hne, hww⟩ := mem_ite_singleton hw1
      subst hww
      refine ⟨rfl, fun h => by simp at h, fun h => by simp at h, ?_, ?_⟩ <;>
        · intro h hi0
          subst hi0
          dsimp only at h
          rw [if_pos rfl] at h
          split_ifs at h <;> simp_all

theorem dayCheck_flags (logs : List LogRec) (meals : Option (ℤ → Bool)) (today : ℤ)
    (i : ℕ) (log : LogRec)
    (hfind : logs.find? (fun l => l.date = today - (i : ℤ)) = some log) :
    (truthyNum log.weight = false →
      ∃ w ∈ dayCheck logs meals today i,
        w.wdate = today - (i : ℤ) ∧ "体重" ∈ w.missingFields) ∧
    (truthyNum log.waist = false →
      ∃ w ∈ dayCheck logs meals today i,
        w.wdate = today - (i : ℤ) ∧ "腹囲" ∈ w.missingFields) := by
  unfold dayCheck
  dsimp only
  rw [hfind]
  dsimp only
  constructor
  · intro hwt
    have hmem : "体重" ∈ (if ¬ truthyNum log.weight = true then ["体重"] else []) := by
      rw [if_pos (by simp [hwt])]
      exact List.mem_singleton.mpr rfl
    by_cases hi0 : i = 0
    · subst hi0
      rw [if_pos rfl]
      have hF : "体重" ∈ ((if ¬ truthyNum log.weight = true then ["体重"] else []) ++
          (if ¬ truthyNum log.waist = true then ["腹囲"] else [])) :=
        List.mem_append_left _ hmem
      have hFne : ¬ ((if ¬ truthyNum log.weight = true then ["体重"] else []) ++
          (if ¬ truthyNum log.waist = true then ["腹囲"] else [])).isEmpty = true := by
        intro hemp
        rw [List.isEmpty_iff] at hemp
        rw [hemp] at hF
        exact List.not_mem_nil _ hF
      rw [if_pos hFne]
      exact ⟨_, List.mem_append_right _ (List.mem_singleton.mpr rfl), rfl, hF⟩
    · rw [if_neg hi0]
      have hF : "体重" ∈ ((((if ¬ truthyNum log.weight = true then ["体重"] else []) ++
          (if ¬ truthyNum log.waist = true then ["腹囲"] else [])) ++
          (if ¬ truthyNum log.calories_intake = true then ["カロリー"] else [])) ++
          (if log.steps = none then ["歩数"] else [])) :=
        List.mem_append_left _ (List.mem_append_left _ (List.mem_append_left _ hmem))
      have hFne : ¬ ((((if ¬ truthyNum log.weight = true then ["体重"] else []) ++
          (if ¬ truthyNum log.waist = true then ["腹囲"] else [])) ++
          (if ¬ truthyNum log.calories_intake = true then ["カロリー"] else [])) ++
          (if log.steps = none then ["歩数"] else [])).isEmpty = true := by
        intro hemp
        rw [List.isEmpty_iff] at hemp
        rw [hemp] at hF
        exact List.not_mem_nil _ hF
      rw [if_pos hFne]
      exact ⟨_, List.mem_append_right _ (List.mem_singleton.mpr rfl), rfl, hF⟩
  · intro hwa
    have hmem : "腹囲" ∈ (if ¬ truthyNum log.waist = true then ["腹囲"] else []) := by
      rw [if_pos (by simp [hwa])]
      exact List.mem_singleton.mpr rfl
    by_cases hi0 : i = 0
    · subst hi0
      rw [if_pos rfl]
      have hF : "腹囲" ∈ ((if ¬ truthyNum log.weight = true then ["体重"] else []) ++
          (if ¬ truthyNum log.waist = true then ["腹囲"] else [])) :=
        List.mem_append_right _ hmem
      have hFne : ¬ ((if ¬ truthyNum log.weight = true then ["体重"] else []) ++
          (if ¬ truthyNum log.waist = true then ["腹囲"] else [])).isEmpty = true := by
        intro hemp
        rw [List.isEmpty_iff] at hemp
        rw [hemp] at hF
        exact List.not_mem_nil _ hF
      rw [if_pos hFne]
      exact ⟨_, List.mem_append_right _ (List.mem_singleton.mpr rfl), rfl, hF⟩
    · rw [if_neg hi0]
      have hF : "腹囲" ∈ ((((if ¬ truthyNum log.weight = true then ["体重"] else []) ++
          (if ¬ truthyNum log.waist = true then ["腹囲"] else [])) ++
          (if ¬ truthyNum log.calories_intake = true then ["カロリー"] else [])) ++
          (if log.steps = none then ["歩数"] else [])) :=
        List.mem_append_left _ (List.mem_append_left _ (List.mem_append_right _ hmem))
      have hFne : ¬ ((((if ¬ truthyNum log.weight = true then ["体重"] else []) ++
          (if ¬ truthyNum log.waist = true then ["腹囲"] else [])) ++
          (if ¬ truthyNum log.calories_intake = true then ["カロリー"] else [])) ++
          (if log.steps = none then ["歩数"] else [])).isEmpty = true := by
        intro hemp
        rw [List.isEmpty_iff] at hemp
        rw [hemp] at hF
        exact List.not_mem_nil _ hF
      rw [if_pos hFne]
      exact ⟨_, List.mem_append_right _ (List.mem_singleton.mpr rfl), rfl, hF⟩

/-- C8: over the reference date and the two preceding days,
`checkDataCompleteness` never emits a "data entirely missing" (`no_data`)
warning for the reference date itself; `missing_meals` warnings and the
カロリー (calories) and 歩数 (steps) missing-field labels occur only for days
strictly before the reference date; and a missing weight (体重) or waist
(腹囲) value is flagged on any of the three checked days that has a log
entry. -/
theorem c8_completeness (logs : List LogRec) (meals : Option (ℤ → Bool)) (today : ℤ) :
    (∀ w ∈ checkDataCompleteness logs meals today,
      w.wtype = "no_data" → w.wdate < today) ∧
    (∀ w ∈ checkDataCompleteness logs meals today,
      w.wtype = "missing_meals" → w.wdate < today) ∧
    (∀ w ∈ checkDataCompleteness logs meals today,
      "カロリー" ∈ w.missingFields → w.wdate < today) ∧
    (∀ w ∈ checkDataCompleteness logs meals today,
      "歩数" ∈ w.missingFields → w.wdate < today) ∧
    (∀ i : ℕ, i < 3 → ∀ log, logs.find? (fun l => l.date = today - (i : ℤ)) = some log →
      (truthyNum log.weight = false →
        ∃ w ∈ checkDataCompleteness logs meals today,
          w.wdate = today - (i : ℤ) ∧ "体重" ∈ w.missingFields) ∧
      (truthyNum log.waist = false →
        ∃ w ∈ checkDataCompleteness logs meals today,
          w.wdate = today - (i : ℤ) ∧ "腹囲" ∈ w.missingFields)) := by
  have hsplit : ∀ w ∈ checkDataCompleteness logs meals today,
      ∃ i : ℕ, i < 3 ∧ w ∈ dayCheck logs meals today i := by
    intro w hw
    unfold checkDataCompleteness at hw
    rcases List.mem_append.mp hw with h1 | h1
    · rcases List.mem_append.mp h1 with h2 | h2
      · exact ⟨0, by omega, h2⟩
      · exact ⟨1, by omega, h2⟩
    · exact ⟨2, by omega, h1⟩
  have hlt : ∀ (w : Warning) (i : ℕ), w.wdate = today - (i : ℤ) → i ≠ 0 →
      w.wdate < today := by
    intro w i hdate hi
    have : (0 : ℤ) < (i : ℤ) := by exact_mod_cast Nat.pos_of_ne_zero hi
    omega
  refine ⟨?_, ?_, ?_, ?_, ?_⟩
  · intro w hw htype
    obtain ⟨i, _, hwi⟩ := hsplit w hw
    obtain ⟨hdate, himp, _, _, _⟩ := dayCheck_spec logs meals today i w hwi
    exact hlt w i hdate (himp htype)
  · intro w hw htype
    obtain ⟨i, _, hwi⟩ := hsplit w hw
    obtain ⟨hdate, _, himp, _, _⟩ := dayCheck_spec logs meals today i w hwi
    exact hlt w i hdate (himp htype)
  · intro w hw hfield
    obtain ⟨i, _, hwi⟩ := hsplit w hw
    obtain ⟨hdate, _, _, himp, _⟩ := dayCheck_spec logs meals today i w hwi
    exact hlt w i hdate (himp hfield)
  · intro w hw hfield
    obtain ⟨i, _, hwi⟩ := hsplit w hw
    obtain ⟨hdate, _, _, _, himp⟩ := dayCheck_spec logs meals today i w hwi
    exact hlt w i hdate (himp hfield)
  · intro i hi3 log hfind
    have hlift : ∀ w, w ∈ dayCheck logs meals today i →
        w ∈ checkDataCompleteness logs meals today := by
      intro w hwi
      unfold checkDataCompleteness
      interval_cases i
      · exact List.mem_append_left _ (List.mem_append_left _ hwi)
      · exact List.mem_append_left _ (List.mem_append_right _ hwi)
      · exact List.mem_append_right _ hwi
    obtain ⟨hwt, hwa⟩ := dayCheck_flags logs meals today i log hfind
    constructor
    · intro h
      obtain ⟨w, hwmem, hrest⟩ := hwt h
      exact ⟨w, hlift w hwmem, hrest⟩
    · intro h
      obtain ⟨w, hwmem, hrest⟩ := hwa h
      exact ⟨w, hlift w hwmem, hrest⟩

/-- C8 witness: with reference date 0 and a single log row for the previous
day lacking a weight value, the completeness check emits a warning for that
previous day flagging 体重 (weight). -/
theorem c8_witness :
    ∃ w ∈ checkDataCompleteness [⟨-1, none, some 80, some 2000, none⟩] none 0,
      w.wdate = 0 - ((1 : ℕ) : ℤ) ∧ "体重" ∈ w.missingFields := by
  exact ((c8_completeness [⟨-1, none, some 80, some 2000, none⟩] none 0).2.2.2.2 1
    (by norm_num) ⟨-1, none, some 80, some 2000, none⟩ (by rfl)).1 rfl

/-! ## C9 — idempotence of date normalization -/

theorem isPrefixOf_false_of_not_mem (c : Char) (p s : List Char) (h : c ∉ s) :
    ((c :: p).isPrefixOf s) = false := by
  cases s with
  | nil => rfl
  | cons x xs =>
    have hcx : (c == x) = false := by
      have hne : c ≠ x := fun hc => h (hc ▸ List.mem_cons_self x xs)
      simpa using hne
    simp [List.isPrefixOf, hcx]

theorem tryDateAt_digits (s y m d : List Char) (h : tryDateAt s = some (y, m, d)) :
    (∀ ch ∈ y, isDig ch = true) ∧ (∀ ch ∈ m, isDig ch = true) ∧
    (∀ ch ∈ d, isDig ch = true) := by
  unfold tryDateAt at h
  split at h
  · dsimp only at h
    split at h
    · exact absurd h (by simp)
    · split at h
      · split at h
        · exact absurd h (by simp)
        · split at h
          · split at h
            · exact absurd h (by simp)
            · split at h
              · have hinj := Option.some.inj h
                rw [Prod.mk.injEq, Prod.mk.injEq] at hinj
                obtain ⟨h1, h2, h3⟩ := hinj
                subst h1
                subst h2
                subst h3
                exact ⟨fun ch hch => List.mem_takeWhile_imp hch,
                  fun ch hch => List.mem_takeWhile_imp hch,
                  fun ch hch => List.mem_takeWhile_imp hch⟩
              · exact absurd h (by simp)
          · exact absurd h (by simp)
      · exact absurd h (by simp)
  · exact absurd h (by simp)

theorem firstDateMatch_digits (s y m d : List Char)
    (h : firstDateMatch s = some (y, m, d)) :
    (∀ ch ∈ y, isDig ch = true) ∧ (∀ ch ∈ m, isDig ch = true) ∧
    (∀ ch ∈ d, isDig ch = true) := by
  induction s with
  | nil => exact absurd h (by simp [firstDateMatch])
  | cons c rest ih =>
    rw [firstDateMatch] at h
    split at h
    · rename_i r hr
      rcases h with h
      exact tryDateAt_digits (c :: rest) y m d (by rw [hr, h])
    · exact ih h

theorem canonChars_of_all_dig (s : List Char) (h : ∀ ch ∈ s, isDig ch = true) :
    canonChars s := fun ch hch => Or.inr (h ch hch)

theorem canonChars_append (a b : List Char) (ha : canonChars a) (hb : canonChars b) :
    canonChars (a ++ b) := by
  intro ch hch
  rcases List.mem_append.mp hch with h1 | h1
  · exact ha ch h1
  · exact hb ch h1

theorem canonChars_cons_dash (s : List Char) (h : canonChars s) :
    canonChars ('-' :: s) := by
  intro ch hch
  rcases List.mem_cons.mp hch with h1 | h1
  · exact Or.inl h1
  · exact h ch h1

theorem canonChars_natToChars (n : ℕ) : canonChars (natToChars n) :=
  canonChars_of_all_dig _ (natToChars_all_dig n)

theorem canonChars_pad2 (s : List Char) (h : canonChars s) : canonChars (pad2 s) := by
  intro ch hch
  rcases mem_pad2 s ch hch with h1 | h1
  · exact Or.inr (by rw [h1]; decide)
  · exact h ch h1

theorem canonChars_pad4 (s : List Char) (h : canonChars s) : canonChars (pad4 s) := by
  intro ch hch
  rcases mem_pad4 s ch hch with h1 | h1
  · exact Or.inr (by rw [h1]; decide)
  · exact h ch h1

theorem normalizeDate_fixed (s : List Char) (h : canonChars s) :
    normalizeDate (.str s) = .str s := by
  have hD : ('D' :: ['a', 't', 'e', '(']).isPrefixOf s = false := by
    apply isPrefixOf_false_of_not_mem
    intro hmem
    rcases h 'D' hmem with h1 | h1
    · exact absurd h1 (by decide)
    · exact absurd h1 (by decide)
  have hslash : '/' ∉ s := by
    intro hmem
    rcases h '/' hmem with h1 | h1
    · exact absurd h1 (by decide)
    · exact absurd h1 (by decide)
  unfold normalizeDate
  dsimp only
  rw [hD]
  simp only [Bool.false_eq_true, if_false]
  rw [splitOnChar_of_not_mem '/' s hslash]

theorem normalizeDate_idem (x : Cell) : normalizeDate (normalizeDate x) = normalizeDate x := by
  rcases x with s | q | ⟨y, m, d⟩ | _ | _
  · by_cases hpre : (('D' :: ['a', 't', 'e', '(']).isPrefixOf s) = true
    · rcases hm : firstDateMatch s with _ | ⟨yy, mm, dd⟩
      · have h1 : normalizeDate (.str s) = .str s := by
          unfold normalizeDate
          dsimp only
          rw [if_pos hpre, hm]
        rw [h1]
        exact h1
      · have h1 : normalizeDate (.str s) =
            .str (yy ++ '-' :: (pad2 (natToChars (charsToNat mm + 1)) ++ '-' :: pad2 dd)) := by
          unfold normalizeDate
          dsimp only
          rw [if_pos hpre, hm]
        rw [h1]
        apply normalizeDate_fixed
        obtain ⟨hy, _, hd⟩ := firstDateMatch_digits s yy mm dd hm
        exact canonChars_append _ _ (canonChars_of_all_dig _ hy)
          (canonChars_cons_dash _ (canonChars_append _ _
            (canonChars_pad2 _ (canonChars_natToChars _))
            (canonChars_cons_dash _ (canonChars_pad2 _ (canonChars_of_all_dig _ hd)))))
    · have hpre' : (('D' :: ['a', 't', 'e', '(']).isPrefixOf s) = false := by
        rw [Bool.not_eq_true] at hpre
        exact hpre
      rcases hsp : splitOnChar '/' s with _ | ⟨a, rest⟩
      · have h1 : normalizeDate (.str s) = .str s := by
          unfold normalizeDate
          dsimp only
          rw [hpre']
          simp only [Bool.false_eq_true, if_false]
          rw [hsp]
        rw [h1]
        exact h1
      · rcases rest with _ | ⟨b, rest2⟩
        · have h1 : normalizeDate (.str s) = .str s := by
            unfold normalizeDate
            dsimp only
            rw [hpre']
            simp only [Bool.false_eq_true, if_false]
            rw [hsp]
          rw [h1]
          exact h1
        · rcases rest2 with _ | ⟨c, rest3⟩
          · by_cases hcond : dig12 a = true ∧ dig12 b = true
            · have h1 : normalizeDate (.str s) =
                  .str (['2', '0', '2', '6'] ++ '-' :: (pad2 a ++ '-' :: pad2 b)) := by
                unfold normalizeDate
                dsimp only
                rw [hpre']
                simp only [Bool.false_eq_true, if_false]
                rw [hsp]
                dsimp only
                rw [if_pos hcond]
              rw [h1]
              apply normalizeDate_fixed
              obtain ⟨ha, hb⟩ := hcond
              have hadig : allDig a = true := by
                simpa [dig12] using (of_decide_eq_true ha).2
              have hbdig : allDig b = true := by
                simpa [dig12] using (of_decide_eq_true hb).2
              refine canonChars_append _ _ (canonChars_of_all_dig _ (List.all_eq_true.mp (by decide))) (canonChars_cons_dash _
                (canonChars_append _ _
                  (canonChars_pad2 _ (canonChars_of_all_dig _ (List.all_eq_true.mp hadig)))
                  (canonChars_cons_dash _
                    (canonChars_pad2 _ (canonChars_of_all_dig _ (List.all_eq_true.mp hbdig))))))
            · have h1 : normalizeDate (.str s) = .str s := by
                unfold normalizeDate
                dsimp only
                rw [hpre']
                simp only [Bool.false_eq_true, if_false]
                rw [hsp]
                dsimp only
                rw [if_neg hcond]
              rw [h1]
              exact h1
          · rcases rest3 with _ | ⟨x4, rest4⟩
            · by_cases hcond : a.length = 4 ∧ allDig a = true ∧ dig12 b = true ∧ dig12 c = true
              · have h1 : normalizeDate (.str s) =
                    .str (a ++ '-' :: (pad2 b ++ '-' :: pad2 c)) := by
                  unfold normalizeDate
                  dsimp only
                  rw [hpre']
                  simp only [Bool.false_eq_true, if_false]
                  rw [hsp]
                  dsimp only
                  rw [if_pos hcond]
                rw [h1]
                apply normalizeDate_fixed
                obtain ⟨-, ha, hb, hc⟩ := hcond
                have hbdig : allDig b = true := by
                  simpa [dig12] using (of_decide_eq_true hb).2
                have hcdig : allDig c = true := by
                  simpa [dig12] using (of_decide_eq_true hc).2
                exact canonChars_append _ _
                  (canonChars_of_all_dig _ (List.all_eq_true.mp ha))
                  (canonChars_cons_dash _ (canonChars_append _ _
                    (canonChars_pad2 _ (canonChars_of_all_dig _ (List.all_eq_true.mp hbdig)))
                    (canonChars_cons_dash _
                      (canonChars_pad2 _ (canonChars_of_all_dig _ (List.all_eq_true.mp hcdig))))))
              · have h1 : normalizeDate (.str s) = .str s := by
                  unfold normalizeDate
                  dsimp only
                  rw [hpre']
                  simp only [Bool.false_eq_true, if_false]
                  rw [hsp]
                  dsimp only
                  rw [if_neg hcond]
                rw [h1]
                exact h1
            · have h1 : normalizeDate (.str s) = .str s := by
                unfold normalizeDate
                dsimp only
                rw [hpre']
                simp only [Bool.false_eq_true, if_false]
                rw [hsp]
              rw [h1]
              exact h1
  · rfl
  · have h1 : normalizeDate (.dateObj y m d) =
        .str (pad4 (natToChars y) ++ '-' :: (pad2 (natToChars m) ++ '-' :: pad2 (natToChars d))) :=
      rfl
    rw [h1]
    apply normalizeDate_fixed
    exact canonChars_append _ _ (canonChars_pad4 _ (canonChars_natToChars y))
      (canonChars_cons_dash _ (canonChars_append _ _
        (canonChars_pad2 _ (canonChars_natToChars m))
        (canonChars_cons_dash _ (canonChars_pad2 _ (canonChars_natToChars d)))))
  · rfl
  · rfl

/-- C9: the date normalization of the row parser is idempotent on every cell
value — its canonical outputs (dash-and-digit strings) fall through every
branch unchanged — and hence re-running it on the `date` field of any entry
produced by `parseInputSheet` is a no-op. -/
theorem c9_normalize_idempotent :
    (∀ x : Cell, normalizeDate (normalizeDate x) = normalizeDate x) ∧
    (∀ rows : List (List Cell), ∀ e ∈ parseInputSheet rows,
      normalizeDate e.date = e.date) := by
  refine ⟨normalizeDate_idem, ?_⟩
  intro rows e he
  unfold parseInputSheet at he
  split at he
  · exact absurd he (by simp)
  · obtain ⟨row, hrow, hfe⟩ := List.mem_filterMap.mp he
    split at hfe
    · have he2 := Option.some.inj hfe
      subst he2
      exact normalizeDate_idem (getCell row 0)
    · exact absurd hfe (by simp)

/-- C9 witness: the parser output for the raw partial date "1/8" carries the
canonical date 2026-01-08, on which normalization is a no-op. -/
theorem c9_witness :
    normalizeDate (Cell.str ['2', '0', '2', '6', '-', '0', '1', '-', '0', '8']) =
      Cell.str ['2', '0', '2', '6', '-', '0', '1', '-', '0', '8'] := by
  have h := c9_normalize_idempotent.2 [[], [Cell.str ['1', '/', '8']]]
    ⟨Cell.str ['2', '0', '2', '6', '-', '0', '1', '-', '0', '8'],
      none, none, none, none, none, none, none, Cell.str []⟩ (by decide)
  exact h
